import Mathlib

/-!
Verification of the cairo-lint diagnostic-to-fix pipeline.

The Rust source (crates/cairo-lint-core/src/{fix.rs, plugin.rs,
lints/collapsible_if_else.rs}) is shallowly embedded below.  Pure text
manipulation is modelled on `List Char` (a Rust `String` is its list of
`char`s); machine integers are `Nat` (usize, with explicit checked
subtraction where the source may underflow) and `Int` (i32); fallible
code (`unwrap` on an exhausted iterator, arithmetic-overflow aborts,
`panic!`, `todo!`) returns `Option`, `none` meaning the computation
panics.  Loops are written as fuel-indexed recursion; every loop of the
source consumes at least one input character per iteration, so fuel
`length + 1` is always sufficient and the fuel-out branch is dead for
the actual entry points.
-/

namespace CairoLint

/-- Rust `char::is_whitespace`, restricted to the ASCII whitespace
characters that can occur in the analysed source text. -/
def isWs (c : Char) : Bool :=
  c == ' ' || c == '\n' || c == '\t' || c == '\r'

/-- Number of non-newline whitespace characters, as counted by the
`if next_char != '\n' { if_indentation += 1 }` loop of
`transform_if_else` (fix.rs lines 266-275). -/
def countNonNl (l : List Char) : Nat :=
  (l.filter (fun c => c != '\n')).length

/-- Checked usize subtraction: Rust `a - b` on `usize` aborts when
`b > a` (debug overflow check); `none` models that abort. -/
def csub (a b : Nat) : Option Nat :=
  if b ≤ a then some (a - b) else none

/-- `pat.isPrefixOf s`, written out so that proofs can unfold it. -/
def startsWithL : List Char → List Char → Bool
  | [], _ => true
  | _ :: _, [] => false
  | p :: ps, c :: cs => p == c && startsWithL ps cs

/-- Rust `str::ends_with` on the accumulated `temp` buffer. -/
def endsWithL (l pat : List Char) : Bool :=
  startsWithL pat.reverse l.reverse

/-- Does `pat` occur as a contiguous substring of `s`? -/
def occursSub (pat : List Char) : List Char → Bool
  | [] => startsWithL pat []
  | c :: cs => startsWithL pat (c :: cs) || occursSub pat cs

/-- Rust `str::replace pat rep`: replace each non-overlapping occurrence
of `pat`, scanning left to right (fix.rs line 439 uses `rep = ""`,
line 170 uses `rep = "break;"`; both uses have a non-empty `pat`, and
fuel `s.length + 1` suffices because every step consumes at least one
character of `s`). -/
def replaceAll : Nat → List Char → List Char → List Char → List Char
  | 0, s, _, _ => s
  | _ + 1, [], _, _ => []
  | fuel + 1, c :: cs, pat, rep =>
    if startsWithL pat (c :: cs) then
      rep ++ replaceAll fuel ((c :: cs).drop pat.length) pat rep
    else
      c :: replaceAll fuel cs pat rep

/-- The mutable locals of `Fixer::transform_if_else` that live across
both loops (fix.rs lines 237-242).  `result` is kept reversed (most
recently pushed character first), so Rust `String::push` is `cons` and
`String::pop` is `tail`. -/
structure TState where
  result : List Char
  ifInd : Nat
  diffInd : Nat
  insideElse : Bool
  extraElse : Bool
deriving Repr, DecidableEq

/-- Rust `result.push_str(s)` on the reversed buffer. -/
def pushStr (res : List Char) (s : List Char) : List Char :=
  s.reverse ++ res

/-- Rust `result.push(' ')` repeated `n` times. -/
def pushSpaces (res : List Char) (n : Nat) : List Char :=
  List.replicate n ' ' ++ res

/-- Do the last `pat.length` characters of the (reversed) buffer read
`pat`?  Models the `last_5_chars == "else "` / `last_4_chars == "else"`
tests of fix.rs lines 291-292. -/
def lastIs (res : List Char) (pat : List Char) : Bool :=
  (res.take pat.length).reverse == pat

/-- The inner flattening loop of `Fixer::transform_if_else`
(fix.rs lines 285-423), entered after `else if` has been emitted.
Arguments: fuel, the shared state, `open_braces : Int` (an i32 that
does reach `-1`), the remaining characters.  Returns the state and the
characters left unconsumed (empty when the loop ends by exhaustion;
the suffix after the `break` of line 365 otherwise); `none` models an
arithmetic-overflow abort of the usize subtractions at lines 385/400. -/
def flatten : Nat → TState → Int → List Char → Option (TState × List Char)
  | 0, _, _, _ => none
  | _ + 1, st, _, [] => some (st, [])
  | fuel + 1, st, ob, c :: cs =>
    if c = '{' then
      if st.insideElse then
        -- lines 290-336: absorb a second `else` introduced by flattening
        if lastIs st.result (String.data "else ") then
          flatten fuel { st with result := (st.result.drop 5).dropWhile isWs,
                                 extraElse := true } ob cs
        else if lastIs st.result (String.data "else") then
          flatten fuel { st with result := (st.result.drop 4).dropWhile isWs,
                                 extraElse := true } ob cs
        else
          match cs with
          | '}' :: cs2 =>
            -- peeked `}`: collapse to a bare `{}` (lines 326-331)
            flatten fuel { st with result := '}' :: '{' :: st.result } ob cs2
          | _ :: _ =>
            -- peeked any other character: the branch of lines 326-331
            -- emits nothing and the brace is dropped
            flatten fuel st ob cs
          | [] =>
            -- `chars.peek()` is `None`: the else of lines 332-335
            flatten fuel { st with result := '{' :: st.result } (ob + 1) cs
      else
        flatten fuel { st with result := '{' :: st.result } (ob + 1) cs
    else if c = '}' then
      -- lines 342-368
      if ob = 1 then
        if st.insideElse then
          flatten fuel st (ob - 1) cs
        else
          flatten fuel { st with
            result := pushStr (st.result.drop st.diffInd) (String.data "\x7d else \x7b"),
            insideElse := true } (ob - 1) cs
      else if ob = 0 then
        flatten fuel { st with result := '}' :: st.result } (ob - 1) cs
      else
        -- trim trailing whitespace, then `break` (lines 357-365)
        some ({ st with result := st.result.dropWhile isWs }, cs)
    else if c = '\n' then
      -- lines 369-419
      let sp := cs.takeWhile (fun x => x == ' ')
      let rest := cs.dropWhile (fun x => x == ' ')
      let lineInd := sp.length
      let res1 := '\n' :: st.result
      match (if st.diffInd = 0 then csub lineInd st.ifInd else some st.diffInd) with
      | none => none
      | some nd =>
        if st.ifInd < lineInd then
          -- line 390 emits `line - (line - if_ind)` spaces
          flatten fuel { st with result := pushSpaces res1 (lineInd - (lineInd - st.ifInd)),
                                 diffInd := nd } ob rest
        else if st.insideElse then
          match rest.head? with
          | some h =>
            if h = '}' && st.extraElse then
              match csub lineInd nd with
              | none => none
              | some k =>
                flatten fuel { st with result := pushSpaces res1 k,
                                       diffInd := nd, extraElse := false } ob rest
            else
              flatten fuel { st with result := pushSpaces res1 lineInd,
                                     diffInd := nd } ob rest
          | none =>
            flatten fuel { st with result := res1, diffInd := nd } ob rest
        else
          flatten fuel { st with result := pushSpaces res1 lineInd,
                                 diffInd := nd } ob rest
    else
      flatten fuel { st with result := c :: st.result } ob cs

/-- The `{`-branch of the outer scanner (fix.rs lines 262-427), after
the whitespace-then-`{` following an `el..` window has been
recognised: skip (and lose) the whitespace after the `{` while
counting its non-newline characters into `if_indentation`, then on
`if` with the exact `else {if`/`else{if` shape emit `else if` and
flatten; otherwise re-emit `temp` (without the lost whitespace).
`k` is the outer scan continued at the current fuel, `flat` the
flattening loop at the current fuel. -/
def scanBrace (k : TState → List Char → Option TState)
    (flat : TState → Int → List Char → Option (TState × List Char))
    (st : TState) (temp1 rest1 : List Char) : Option TState :=
  let rest2 := rest1.tail
  let ws2 := rest2.takeWhile isWs
  let rest3 := rest2.dropWhile isWs
  let st1 : TState := { st with ifInd := st.ifInd + countNonNl ws2 }
  let temp2 := temp1 ++ [ '{' ]
  match rest3 with
  | 'i' :: cf :: rest4 =>
    let temp3 := temp2 ++ [ 'i', cf ]
    if endsWithL temp3 (String.data "else \x7bif") ||
       endsWithL temp3 (String.data "else\x7bif") then
      match flat { st1 with result := pushStr st1.result (String.data "else if") } 0 rest4 with
      | none => none
      | some (st2, rem) => k st2 rem
    else
      k { st1 with result := pushStr st1.result temp3 } rest4
  | [ 'i' ] =>
    -- `temp.push(chars.next().unwrap())` at line 280 panics
    none
  | _ =>
    k { st1 with result := pushStr st1.result temp2 } rest3

/-- The outer scanning loop of `Fixer::transform_if_else`
(fix.rs lines 244-432).  On `'e'` with `'l'` peeked it reads three more
characters (`none` when they are missing: the `unwrap`s of lines
249-251 panic), spans whitespace into `temp`, and on `{` continues in
`scanBrace`; every other character is copied through. -/
def scanOuter : Nat → TState → List Char → Option TState
  | 0, _, _ => none
  | fuel + 1, st, s =>
    match s with
    | [] => some st
    | c :: cs =>
      if c = 'e' ∧ cs.head? = some 'l' then
        match cs with
        | c2 :: c3 :: c4 :: rest =>
          let temp1 : List Char := c :: c2 :: c3 :: c4 :: rest.takeWhile isWs
          let rest1 := rest.dropWhile isWs
          if rest1.head? = some '{' then
            scanBrace (scanOuter fuel) (flatten fuel) st temp1 rest1
          else
            scanOuter fuel { st with result := pushStr st.result temp1 } rest1
        | _ =>
          -- fewer than three characters follow the `'e'`: an `unwrap`
          -- of lines 249-251 panics
          none
      else
        scanOuter fuel { st with result := c :: st.result } cs

/-- `Fixer::transform_if_else` (fix.rs lines 236-442): run the scan,
then delete every occurrence of `" else {\n" + delta-spaces + "}"`. -/
def transform_if_else (text : String) : Option String :=
  match scanOuter (text.data.length + 1) ⟨[], 0, 0, false, false⟩ text.data with
  | none => none
  | some st =>
    let res := st.result.reverse
    let pattern := String.data " else \x7b\n" ++ List.replicate st.diffInd ' ' ++ [ '}' ]
    some (String.mk (replaceAll (res.length + 1) res pattern []))

/-- `Fixer::fix_collapsible_if_else` (fix.rs lines 228-233): the fix is
`transform_if_else` applied to the diagnostic node's text. -/
def fix_collapsible_if_else (nodeText : String) : Option String :=
  transform_if_else nodeText

/-! ### Specification-side predicates about the rewriter -/

/-- Does the text start with the spec's trigger sequence
`else`-whitespace-`{`-whitespace-`if` (both whitespace runs possibly
empty)?  This is the spec's wording, written independently of the
scanner. -/
def elseBraceIfHere : List Char → Bool
  | 'e' :: 'l' :: 's' :: 'e' :: rest =>
    match rest.dropWhile isWs with
    | '{' :: r2 =>
      match r2.dropWhile isWs with
      | 'i' :: 'f' :: _ => true
      | _ => false
    | _ => false
  | _ => false

/-- Does the spec's trigger sequence `else`-ws-`{`-ws-`if` occur
anywhere in the text? -/
def containsElseBraceIf : List Char → Bool
  | [] => false
  | c :: cs => elseBraceIfHere (c :: cs) || containsElseBraceIf cs

/-- A character list is scan-benign when, each time the outer scanner
fires on an `'e'` immediately followed by `'l'`, there are enough
characters for the three reads and the character after the four-char
window plus whitespace run is not `'{'` — a sufficient condition for
the scanner to re-emit everything it consumed.  Mirrors the
fuel/recursion structure of `scanOuter`. -/
def benignF : Nat → List Char → Bool
  | 0, _ => false
  | fuel + 1, s =>
    match s with
    | [] => true
    | c :: cs =>
      if c = 'e' ∧ cs.head? = some 'l' then
        match cs with
        | _ :: _ :: _ :: rest =>
          let rest1 := rest.dropWhile isWs
          if rest1.head? = some '{' then false
          else benignF fuel rest1
        | _ => false
      else benignF fuel cs

/-- No `'e'` immediately followed by `'l'` anywhere in the text. -/
def noElPair : List Char → Bool
  | [] => true
  | [_] => true
  | c :: d :: rest => !(c == 'e' && d == 'l') && noElPair (d :: rest)

/-! ### Concrete texts for the rewriter claims -/

/-- The spec §8 collapsible else-if example (nine lines). -/
def c1Input : String :=
  "if a \x7b\n    x();\n\x7d else \x7b\n    if b \x7b\n        y();\n    \x7d else \x7b\n        z();\n    \x7d\n\x7d"

/-- The spec §8 expected fixed output (seven lines). -/
def c1Output : String :=
  "if a \x7b\n    x();\n\x7d else if b \x7b\n    y();\n\x7d else \x7b\n    z();\n\x7d"

/-- The 47 characters of the deep-line example before the variable
space run: the §8 `if`/`else` skeleton up to the continued call
`y(` and its newline. -/
def c3Head : String :=
  "if a \x7b\n    x();\n\x7d else \x7b\n    if b \x7b\n        y(\n"

/-- The 37 characters of the deep-line example after the variable
space run: the continuation `0);`, the inner else with `z();`, and the
closing braces. -/
def c3Tail : String :=
  "0);\n    \x7d else \x7b\n        z();\n    \x7d\n\x7d"

/-- The §8 example with the call `y(` continued on a line indented by
`d` spaces — a line nested deeper than one level below the base
if-indentation (4). -/
def c3Input (d : Nat) : String :=
  c3Head ++ String.mk (List.replicate d ' ') ++ c3Tail

/-- What the rewriter actually produces on `c3Input d` for every
`d > 4`: the deep continuation line is re-emitted at exactly the base
if-indentation (4 spaces), independent of `d`. -/
def c3Output : String :=
  "if a \x7b\n    x();\n\x7d else if b \x7b\n    y(\n    0);\n\x7d else \x7b\n    z();\n\x7d"

/-- What claim C3's rule (reduce every deep line by exactly one delta)
would dictate on `c3Input 12`: the continuation line at 12 − 4 = 8
spaces. -/
def c3ClaimOutput : String :=
  "if a \x7b\n    x();\n\x7d else if b \x7b\n    y(\n        0);\n\x7d else \x7b\n    z();\n\x7d"

/-- The scanner state at the moment the flattening loop reaches the
newline that precedes the variable space run of `c3Input d`: the text
up to `y(` has been re-emitted one level shallower (the buffer is kept
reversed), the base if-indentation is 4 and the delta has been fixed
at 4 by the first line. -/
def c3St0 : TState :=
  { result := (String.data "if a \x7b\n    x();\n\x7d else if b \x7b\n    y(").reverse,
    ifInd := 4, diffInd := 4, insideElse := false, extraElse := false }

/-- The scanner state after the flattening loop has consumed all of
`c3Input d`: the emission buffer holds `c3Output` reversed, and the
`else`-clause has been entered with the absorbed extra `else`
resolved. -/
def c3StF : TState :=
  { result := (String.data c3Output).reverse,
    ifInd := 4, diffInd := 4, insideElse := true, extraElse := false }

/-- The §8 example with the inner `if` having no `else` of its own,
at top level (final closing brace in column 0). -/
def c4Input : String :=
  "if a \x7b\n    x();\n\x7d else \x7b\n    if b \x7b\n        y();\n    \x7d\n\x7d"

/-- What the rewriter actually produces on `c4Input`: a dangling
`} else {` + newline + `}` remains, because the vacuous else block's
closing line has 0 spaces while the deletion pattern demands
delta-many (4). -/
def c4Output : String :=
  "if a \x7b\n    x();\n\x7d else if b \x7b\n    y();\n\x7d else \x7b\n\x7d"

/-- An else-clause (inner `if` without `else`) indented the way it
occurs inside a function, so that the vacuous block's closing line
carries exactly delta-many (4) spaces. -/
def c4IndentedInput : String :=
  "else \x7b\n        if b \x7b\n            y();\n        \x7d\n    \x7d"

/-- The rewriter's output on `c4IndentedInput`: the emptied else block
matches the deletion pattern exactly and is removed. -/
def c4IndentedOutput : String :=
  "else if b \x7b\n        y();\n    \x7d"

/-! ### Model of the collapsible else-if detector
(lints/collapsible_if_else.rs).  The host syntax tree is embedded just
deeply enough: an else clause holds either a block or an `if`
(`BlockOrIf`), a block holds statements, a statement is either an
expression statement or something else, and an expression is either an
`if` expression or something else.  Opaque `Nat` ids stand for the
subtrees the detector never inspects. -/

/-- Host `Severity`. -/
inductive SeverityM where
  | Warning
  | Error
deriving Repr, DecidableEq

/-- Host `PluginDiagnostic` as constructed by the detector
(stable_ptr, message, severity). -/
structure PluginDiagnosticM where
  stablePtr : Nat
  message : String
  severity : SeverityM
deriving Repr, DecidableEq

/-- Syntax `Expr`, split into the one case the detector inspects. -/
inductive ExprM where
  | ifExpr (id : Nat)
  | otherExpr (id : Nat)
deriving Repr, DecidableEq

/-- Syntax `StatementExpr` (an expression statement). -/
structure StatementExprM where
  expr : ExprM
deriving Repr, DecidableEq

/-- Syntax `Statement`. -/
inductive StatementM where
  | exprStmt (s : StatementExprM)
  | otherStmt (id : Nat)
deriving Repr, DecidableEq

/-- Syntax `ExprBlock`: a list of statements. -/
structure ExprBlockM where
  statements : List StatementM
deriving Repr, DecidableEq

/-- Syntax `BlockOrIf`. -/
inductive BlockOrIfM where
  | block (b : ExprBlockM)
  | ifBlock (id : Nat)
deriving Repr, DecidableEq

/-- Syntax `ElseClause`: its `else_block_or_if` child and its stable
pointer. -/
structure ElseClauseM where
  elseBlockOrIf : BlockOrIfM
  stablePtr : Nat
deriving Repr, DecidableEq

/-- `COLLAPSIBLE_ELSE_IF` (collapsible_if_else.rs line 7). -/
def COLLAPSIBLE_ELSE_IF : String :=
  "Consider using \x27else if\x27 instead of \x27else \x7b if ... \x7d\x27"

/-- `is_else_if` (collapsible_if_else.rs lines 9-19). -/
def is_else_if (else_clause : ElseClauseM) : Bool :=
  match else_clause.elseBlockOrIf with
  | .ifBlock _ => true
  | _ => false

/-- `is_first_statement_if` (collapsible_if_else.rs lines 21-41). -/
def is_first_statement_if (block_expr : ExprBlockM) : Bool :=
  match block_expr.statements.head? with
  | some first_statement =>
    match first_statement with
    | .exprStmt statement_expr =>
      match statement_expr.expr with
      | .ifExpr _ => true
      | _ => false
    | _ => false
  | none => false

/-- `check_collapsible_else_if` (collapsible_if_else.rs lines 43-63).
The `let ... else { todo!() }` of line 51 is a panic, modelled as
`none`. -/
def check_collapsible_else_if (else_clause : ElseClauseM)
    (diagnostics : List PluginDiagnosticM) : Option (List PluginDiagnosticM) :=
  let else_if := is_else_if else_clause
  if !else_if then
    match else_clause.elseBlockOrIf with
    | .block block_expr =>
      if is_first_statement_if block_expr then
        some (diagnostics ++
          [{ stablePtr := else_clause.stablePtr,
             message := COLLAPSIBLE_ELSE_IF,
             severity := SeverityM.Warning }])
      else
        some diagnostics
    | .ifBlock _ => none
  else
    some diagnostics

/-- Spec-side characterisation, written in one flat match: the else
clause is a plain block (not an `else if`) whose first statement is an
expression statement holding an `if` expression. -/
def elseIsPlainBlockWithLeadingIf (c : ElseClauseM) : Bool :=
  match c.elseBlockOrIf with
  | .block b =>
    match b.statements with
    | .exprStmt ⟨.ifExpr _⟩ :: _ => true
    | _ => false
  | .ifBlock _ => false

/-! ### Model of the diagnostic classifier (plugin.rs lines 23-54).
Of the twelve category message constants only `COLLAPSIBLE_ELSE_IF`
is defined in a file under src/; the others live in lint modules that
are not part of this snapshot and are modelled below. -/

/-- `CairoLintKind` (plugin.rs lines 23-36). -/
inductive CairoLintKind where
  | DestructMatch
  | MatchForEquality
  | DoubleComparison
  | DoubleParens
  | EquatableIfLet
  | BreakUnit
  | BoolComparison
  | CollapsibleIfElse
  | DuplicateUnderscoreArgs
  | LoopMatchPopFront
  | Unknown
deriving Repr, DecidableEq

/-- Modelled from the spec: `single_match::DESTRUCT_MATCH`, a fixed
category message constant whose module is not under src/; per the §3
invariant the constants are unique stable strings, so it is modelled
as a string distinct from the other eleven. -/
def DESTRUCT_MATCH : String := "destructuring match detected"

/-- Modelled from the spec: `single_match::MATCH_FOR_EQUALITY`
(module not under src/). -/
def MATCH_FOR_EQUALITY : String := "match used for equality check"

/-- Modelled from the spec: `double_parens::DOUBLE_PARENS`
(module not under src/). -/
def DOUBLE_PARENS : String := "unnecessary double parentheses"

/-- Modelled from the spec:
`double_comparison::SIMPLIFIABLE_COMPARISON` (module not under src/). -/
def SIMPLIFIABLE_COMPARISON : String := "simplifiable double comparison"

/-- Modelled from the spec:
`double_comparison::REDUNDANT_COMPARISON` (module not under src/). -/
def REDUNDANT_COMPARISON : String := "redundant double comparison"

/-- Modelled from the spec:
`double_comparison::CONTRADICTORY_COMPARISON` (module not under
src/). -/
def CONTRADICTORY_COMPARISON : String := "contradictory double comparison"

/-- Modelled from the spec: `breaks::BREAK_UNIT` (module not under
src/). -/
def BREAK_UNIT : String := "unnecessary unit value on break"

/-- Modelled from the spec: `equatable_if_let::EQUATABLE_IF_LET`
(module not under src/). -/
def EQUATABLE_IF_LET : String := "if let used for an equatable value"

/-- Modelled from the spec: `bool_comparison::BOOL_COMPARISON`
(module not under src/). -/
def BOOL_COMPARISON : String := "comparison with a boolean literal"

/-- Modelled from the spec:
`duplicate_underscore_args::DUPLICATE_UNDERSCORE_ARGS` (module not
under src/). -/
def DUPLICATE_UNDERSCORE_ARGS : String := "duplicate underscore argument names"

/-- Modelled from the spec: `loops::LOOP_MATCH_POP_FRONT` (module not
under src/). -/
def LOOP_MATCH_POP_FRONT : String := "loop over match on pop_front"

/-- The twelve fixed category message constants, in the order of the
match arms of `diagnostic_kind_from_message`. -/
def messageConstants : List String :=
  [DESTRUCT_MATCH, MATCH_FOR_EQUALITY, DOUBLE_PARENS,
   SIMPLIFIABLE_COMPARISON, REDUNDANT_COMPARISON, CONTRADICTORY_COMPARISON,
   BREAK_UNIT, EQUATABLE_IF_LET, BOOL_COMPARISON, COLLAPSIBLE_ELSE_IF,
   DUPLICATE_UNDERSCORE_ARGS, LOOP_MATCH_POP_FRONT]

/-- `diagnostic_kind_from_message` (plugin.rs lines 38-54): a match on
the message string, arm by arm in source order (a Rust match on `&str`
is a chain of equality tests). -/
def diagnostic_kind_from_message (message : String) : CairoLintKind :=
  if message = DESTRUCT_MATCH then .DestructMatch
  else if message = MATCH_FOR_EQUALITY then .MatchForEquality
  else if message = DOUBLE_PARENS then .DoubleParens
  else if message = SIMPLIFIABLE_COMPARISON then .DoubleComparison
  else if message = REDUNDANT_COMPARISON then .DoubleComparison
  else if message = CONTRADICTORY_COMPARISON then .DoubleComparison
  else if message = BREAK_UNIT then .BreakUnit
  else if message = EQUATABLE_IF_LET then .EquatableIfLet
  else if message = BOOL_COMPARISON then .BoolComparison
  else if message = COLLAPSIBLE_ELSE_IF then .CollapsibleIfElse
  else if message = DUPLICATE_UNDERSCORE_ARGS then .DuplicateUnderscoreArgs
  else if message = LOOP_MATCH_POP_FRONT then .LoopMatchPopFront
  else .Unknown

/-! ### Models of the simple fix routines (fix.rs) -/

/-- Syntax `Expr` as the fix routines see it: parenthesized wrapper,
binary operation, or anything else carrying its trivia-free text. -/
inductive ExprAst where
  | parenthesized (inner : ExprAst)
  | binary (lhs : ExprAst) (op : String) (rhs : ExprAst)
  | atom (text : String)
deriving Repr, DecidableEq

/-- `SyntaxNode::get_text_without_trivia` on the embedded expression. -/
def getTextWithoutTrivia : ExprAst → String
  | .parenthesized e => "(" ++ getTextWithoutTrivia e ++ ")"
  | .binary l op r => getTextWithoutTrivia l ++ " " ++ op ++ " " ++ getTextWithoutTrivia r
  | .atom t => t

/-- The `while let Expr::Parenthesized(inner) = expr` loop of
`fix_double_parens` (fix.rs lines 202-204). -/
def stripParens : ExprAst → ExprAst
  | .parenthesized e => stripParens e
  | e => e

/-- Is the expression a `Parenthesized` node? -/
def isParenthesized : ExprAst → Bool
  | .parenthesized _ => true
  | _ => false

/-- `Fixer::fix_double_parens` (fix.rs lines 199-211): leading
whitespace of the node text, then the trivia-free text of the first
non-parenthesized descendant. -/
def fix_double_parens (nodeText : String) (e : ExprAst) : String :=
  String.mk (nodeText.data.takeWhile isWs) ++ getTextWithoutTrivia (stripParens e)

/-- `Fixer::fix_break_unit` (fix.rs lines 169-171):
`node.get_text(db).replace("break ();", "break;")`. -/
def fix_break_unit (nodeText : String) : String :=
  String.mk (replaceAll (nodeText.data.length + 1) nodeText.data
    (String.data "break ();") (String.data "break;"))

/-- `ExprBinary` as `fix_bool_comparison` sees it: the texts of its
two operands and its operator. -/
structure BinAstM where
  lhsText : String
  opText : String
  rhsText : String
deriving Repr, DecidableEq

/-- Modelled from the spec:
`bool_comparison::generate_fixed_text_for_comparison` (module not
under src/); the spec §4.3 truth table `x == true → x`,
`x == false → !x`, `x != true → !x`, `x != false → x`, symmetric for a
literal on the left. -/
def generate_fixed_text_for_comparison (lhs rhs : String) (node : BinAstM) : String :=
  if node.opText = "==" then
    if rhs = "true" then lhs
    else if rhs = "false" then "!" ++ lhs
    else if lhs = "true" then rhs
    else if lhs = "false" then "!" ++ rhs
    else lhs ++ " == " ++ rhs
  else if node.opText = "!=" then
    if rhs = "true" then "!" ++ lhs
    else if rhs = "false" then lhs
    else if lhs = "true" then "!" ++ rhs
    else if lhs = "false" then rhs
    else lhs ++ " != " ++ rhs
  else lhs ++ " " ++ node.opText ++ " " ++ rhs

/-- `Fixer::fix_bool_comparison` (fix.rs lines 173-179). -/
def fix_bool_comparison (node : BinAstM) : String :=
  generate_fixed_text_for_comparison node.lhsText node.rhsText node

/-- Modelled from the spec:
`double_comparison::extract_binary_operator_expr` (module not under
src/): the comparison operator of a relational binary expression. -/
def extract_binary_operator_expr : ExprAst → Option String
  | .binary _ op _ =>
    if op = "<" ∨ op = ">" ∨ op = "<=" ∨ op = ">=" ∨ op = "==" ∨ op = "!=" then
      some op
    else
      none
  | _ => none

/-- Modelled from the spec:
`double_comparison::determine_simplified_operator` (module not under
src/); the §4.3 fixed table mapping (left-op, right-op, join-op) to a
simplified operator, e.g. `<` and `==` joined by `||` gives `<=`. -/
def determine_simplified_operator (lhsOp rhsOp middleOp : String) : Option String :=
  match lhsOp, rhsOp, middleOp with
  | "<", "==", "||" => some "<="
  | "==", "<", "||" => some "<="
  | ">", "==", "||" => some ">="
  | "==", ">", "||" => some ">="
  | "<", ">", "||" => some "!="
  | ">", "<", "||" => some "!="
  | "<=", ">=", "&&" => some "=="
  | ">=", "<=", "&&" => some "=="
  | _, _, _ => none

/-- Modelled from the spec: `double_comparison::operator_to_replace`
(module not under src/): the operator text to substitute inside the
left operand. -/
def operator_to_replace (lhsOp : String) : Option String :=
  some lhsOp

/-- `Fixer::fix_double_comparison` (fix.rs lines 444-468). -/
def fix_double_comparison (nodeText : String) (e : ExprAst) : String :=
  match e with
  | .binary lhs middleOp rhs =>
    match extract_binary_operator_expr lhs, extract_binary_operator_expr rhs with
    | some lhsOp, some rhsOp =>
      match determine_simplified_operator lhsOp rhsOp middleOp with
      | some simplifiedOp =>
        match operator_to_replace lhsOp with
        | some opToReplace =>
          String.mk (replaceAll ((getTextWithoutTrivia lhs).data.length + 1)
            (getTextWithoutTrivia lhs).data opToReplace.data simplifiedOp.data)
        | none => nodeText
      | none => nodeText
    | _, _ => nodeText
  | _ => nodeText

/-! ### Model of the destructuring-match fix (fix.rs lines 95-126) -/

/-- Syntax `Pattern` as matched at fix.rs lines 101-113.  Enum and
struct patterns carry their trivia-free text and the text of the
trivia preceding them. -/
inductive PatternM where
  | underscore (id : Nat)
  | enumPat (textNoTrivia : String) (triviaText : String)
  | structPat (textNoTrivia : String) (triviaText : String)
  | otherPat (id : Nat)
deriving Repr, DecidableEq

/-- A match arm: its patterns, its body expression's trivia-free text,
and whether that body is the unit expression (`single_match::
is_expr_unit`; modelled from the spec, its module not being under
src/: one arm's body being a no-op). -/
structure MatchArmM where
  patterns : List PatternM
  exprText : String
  exprIsUnit : Bool
deriving Repr, DecidableEq

/-- `ExprMatch` plus the pieces of the surrounding node the fixer
reads: the arms, the scrutinee's trivia-free text, and the full node
text (used for the indentation prefix). -/
structure ExprMatchM where
  arms : List MatchArmM
  scrutineeText : String
  nodeText : String
deriving Repr, DecidableEq

/-- Rust `str::trim` restricted to the ASCII whitespace of `isWs`. -/
def trimWs (s : String) : String :=
  String.mk (((s.data.dropWhile isWs).reverse.dropWhile isWs).reverse)

/-- `Fixer::fix_destruct_match` (fix.rs lines 95-126).  `none` models
a panic: the out-of-bounds indexings `arms[0]`, `arms[1]`,
`patterns(db).elements(db)[0]` and the explicit
`panic!("Incorrect diagnostic")` of line 113. -/
def fix_destruct_match (m : ExprMatchM) : Option String :=
  match m.arms with
  | first_arm :: second_arm :: _ =>
    match first_arm.patterns, second_arm.patterns with
    | p1 :: _, p2 :: _ =>
      let chosen : Option (String × String × MatchArmM) :=
        match p1, p2 with
        | .underscore _, .enumPat t tr => some (t, tr, second_arm)
        | .enumPat t tr, .underscore _ => some (t, tr, first_arm)
        | .underscore _, .structPat t tr => some (t, tr, second_arm)
        | .structPat t tr, .underscore _ => some (t, tr, first_arm)
        | .enumPat t1 tr1, .enumPat t2 tr2 =>
          if second_arm.exprIsUnit then
            some (t1, tr1, first_arm)
          else
            some (t2, tr2, second_arm)
        | _, _ => none
      match chosen with
      | none => none
      | some (patText, patTrivia, arm) =>
        let indent := String.mk (m.nodeText.data.takeWhile isWs)
        let trivia := trimWs patTrivia
        let trivia2 := if trivia = "" then trivia else indent ++ trivia ++ "\n"
        some (trivia2 ++ indent ++ "if let " ++ patText ++ " = " ++
          m.scrutineeText ++ " \x7b " ++ arm.exprText ++ " \x7d")
    | _, _ => none
  | _ => none

/-- Spec-side list of accepted first-two-arm pattern shapes: a
wildcard paired with an enum or struct pattern in either order, or two
enum patterns. -/
def destructShapeOk : PatternM → PatternM → Bool
  | .underscore _, .enumPat _ _ => true
  | .enumPat _ _, .underscore _ => true
  | .underscore _, .structPat _ _ => true
  | .structPat _ _, .underscore _ => true
  | .enumPat _ _, .enumPat _ _ => true
  | _, _ => false

/-! ### Model of the fix dispatcher (fix.rs lines 43-56 and 140-167) -/

/-- The syntax node a plugin diagnostic's `stable_ptr` resolves to,
bundled with the typed views the individual fixers reinterpret it
through (`Expr::from_syntax_node`, `ExprMatch::from_syntax_node`,
`ExprBinary::from_syntax_node`). -/
structure PluginNodeM where
  text : String
  exprView : ExprAst
  matchView : ExprMatchM
  binView : BinAstM
deriving Repr, DecidableEq

/-- Host `PluginDiagnostic` as the fixer consumes it: its message and
the node its stable pointer looks up to. -/
structure PluginDiagnosticNode where
  message : String
  node : PluginNodeM
deriving Repr, DecidableEq

/-- `SemanticDiagnosticKind`, split into the three variants
`fix_semantic_diagnostic` names; `OtherKind` stands for every
remaining variant of the host enum (all hit the catch-all arm). -/
inductive SemanticDiagnosticKind where
  | UnusedVariable
  | PluginDiagnostic (plugin_diag : PluginDiagnosticNode)
  | UnusedImport (id : Nat)
  | OtherKind (id : Nat)
deriving Repr, DecidableEq

/-- Host `SemanticDiagnostic`: its kind and the text of the node its
`stable_location` resolves to. -/
structure SemanticDiagnostic where
  kind : SemanticDiagnosticKind
  nodeText : String
deriving Repr, DecidableEq

/-- `Fixer::fix_unused_variable` (fix.rs lines 72-76). -/
def fix_unused_variable (diag : SemanticDiagnostic) : Option (String × String) :=
  some (diag.nodeText, "_" ++ diag.nodeText)

/-- `Fixer::fix_plugin_diagnostic` (fix.rs lines 140-167).  The outer
`Option` models panics escaping from the invoked fix routine; the
inner one is the Rust `Option` return (the catch-all arm
`_ => return None` covers `Unknown`, `MatchForEquality`,
`EquatableIfLet`, `DuplicateUnderscoreArgs`, `LoopMatchPopFront`). -/
def fix_plugin_diagnostic (semNodeText : String) (plugin_diag : PluginDiagnosticNode) :
    Option (Option (String × String)) :=
  match diagnostic_kind_from_message plugin_diag.message with
  | .DoubleParens =>
    some (some (semNodeText, fix_double_parens plugin_diag.node.text plugin_diag.node.exprView))
  | .DestructMatch =>
    match fix_destruct_match plugin_diag.node.matchView with
    | none => none
    | some t => some (some (semNodeText, t))
  | .DoubleComparison =>
    some (some (semNodeText, fix_double_comparison plugin_diag.node.text plugin_diag.node.exprView))
  | .BreakUnit =>
    some (some (semNodeText, fix_break_unit plugin_diag.node.text))
  | .BoolComparison =>
    some (some (semNodeText, fix_bool_comparison plugin_diag.node.binView))
  | .CollapsibleIfElse =>
    match fix_collapsible_if_else plugin_diag.node.text with
    | none => none
    | some t => some (some (semNodeText, t))
  | _ => some none

/-- `fix_semantic_diagnostic` (fix.rs lines 43-56). -/
def fix_semantic_diagnostic (diag : SemanticDiagnostic) :
    Option (Option (String × String)) :=
  match diag.kind with
  | .UnusedVariable => some (fix_unused_variable diag)
  | .PluginDiagnostic plugin_diag => fix_plugin_diagnostic diag.nodeText plugin_diag
  | .UnusedImport _ => some none
  | .OtherKind _ => some none

/-- Spec-side condition of claim C7: the diagnostic has no fixer — it
is an unused import, a kind other than unused-variable and
plugin-diagnostic, or a plugin diagnostic whose message classifies to
a category without a fix routine. -/
def hasNoFixer (diag : SemanticDiagnostic) : Bool :=
  match diag.kind with
  | .UnusedImport _ => true
  | .OtherKind _ => true
  | .UnusedVariable => false
  | .PluginDiagnostic plugin_diag =>
    match diagnostic_kind_from_message plugin_diag.message with
    | .Unknown => true
    | .MatchForEquality => true
    | .EquatableIfLet => true
    | .DuplicateUnderscoreArgs => true
    | .LoopMatchPopFront => true
    | _ => false

/-- The deletion pattern of fix.rs lines 434-435 in the case
`diff_indentation = 0`: `" else {\n" + "" + "}"`, written out. -/
def emptyElsePattern : List Char :=
  [' ', 'e', 'l', 's', 'e', ' ', '{', '\n', '}']

end CairoLint

namespace CairoLint

/-! ## Theorems -/

/-- C1: on the spec §8 nine-line collapsible else-if example,
`fix_collapsible_if_else` (that is, `transform_if_else` on the node
text) returns exactly the seven-line fixed text: the nesting is
flattened to a single `else if`, the inner body is re-indented one
level shallower, and all other characters are preserved. -/
theorem C1_spec_example_flattened :
    fix_collapsible_if_else c1Input = some c1Output := by
  decide

/-- C2, counterexample: the text `else { x` contains no
`else`-whitespace-`{`-whitespace-`if` sequence, yet `transform_if_else`
does not return it unchanged — the whitespace between `{` and the first
non-whitespace character is deleted, producing `else {x`. -/
theorem C2_counterexample :
    containsElseBraceIf (String.data "else \x7b x") = false ∧
    transform_if_else "else \x7b x" = some "else \x7bx" ∧
    transform_if_else "else \x7b x" ≠ some "else \x7b x" := by
  refine ⟨by decide, by decide, by decide⟩

/-- C3, counterexample: on `c3Input 12` — whose continuation line
carries 12 spaces, two levels deeper than the base if-indentation 4
with delta 4 — the rewriter does not re-emit that line reduced by one
delta (at 8 spaces, as the claim dictates: `c3ClaimOutput`); it
re-emits it at exactly the base if-indentation, 4 spaces
(`c3Output`). -/
theorem C3_counterexample :
    transform_if_else (c3Input 12) = some c3Output ∧
    c3Output ≠ c3ClaimOutput ∧
    transform_if_else (c3Input 12) ≠ some c3ClaimOutput := by
  refine ⟨by decide, by decide, by decide⟩

/-- Helper: `takeWhile` of spaces distributes over a leading run of
spaces. -/
theorem takeWhile_sp_replicate (d : Nat) (t : List Char) :
    (List.replicate d ' ' ++ t).takeWhile (fun x => x == ' ') =
      List.replicate d ' ' ++ t.takeWhile (fun x => x == ' ') := by
  induction d with
  | zero => rfl
  | succ n ih =>
    simp only [List.replicate_succ, List.cons_append, List.takeWhile_cons]
    simp [ih]

/-- Helper: `dropWhile` of spaces skips a leading run of spaces. -/
theorem dropWhile_sp_replicate (d : Nat) (t : List Char) :
    (List.replicate d ' ' ++ t).dropWhile (fun x => x == ' ') =
      t.dropWhile (fun x => x == ' ') := by
  induction d with
  | zero => rfl
  | succ n ih =>
    simp only [List.replicate_succ, List.cons_append, List.dropWhile_cons]
    simp [ih]

set_option maxRecDepth 8192 in
/-- C3, amended: for every deep-line indentation `d` strictly greater
than the base if-indentation 4, the rewriter re-emits the line that
was `d` spaces deep at exactly the base if-indentation — the output is
the same for every such `d` — because line 390 of fix.rs emits
`line − (line − base) = base` spaces rather than `line − delta`.  The
proof executes the scanner symbolically: everything except the
measurement of the `d`-space run reduces definitionally, and that one
step is resolved by the space-run lemmas and `d − (d − 4) = 4`. -/
theorem C3_amended_deep_lines_to_base (d : Nat) (hd : 4 < d) :
    transform_if_else (c3Input d) = some c3Output := by
  have hdata : (c3Input d).data =
      String.data c3Head ++ (List.replicate d ' ' ++ String.data c3Tail) := rfl
  have hlen : (c3Input d).data.length + 1 = d + 85 := by
    rw [hdata, List.length_append, List.length_append, List.length_replicate]
    rw [show (String.data c3Head).length = 47 from rfl,
      show (String.data c3Tail).length = 37 from rfl]
    omega
  have h2 : flatten (d + 59) c3St0 1
      ('\n' :: (List.replicate d ' ' ++ String.data c3Tail)) = some (c3StF, []) := by
    have e1 : flatten (d + 59) c3St0 1
        ('\n' :: (List.replicate d ' ' ++ String.data c3Tail)) =
        (if 4 < ((List.replicate d ' ' ++ String.data c3Tail).takeWhile (fun x => x == ' ')).length then
          flatten (d + 58) { c3St0 with result := pushSpaces ('\n' :: c3St0.result) (((List.replicate d ' ' ++ String.data c3Tail).takeWhile (fun x => x == ' ')).length - (((List.replicate d ' ' ++ String.data c3Tail).takeWhile (fun x => x == ' ')).length - 4)), diffInd := 4 } 1 ((List.replicate d ' ' ++ String.data c3Tail).dropWhile (fun x => x == ' '))
        else
          flatten (d + 58) { c3St0 with result := pushSpaces ('\n' :: c3St0.result) ((List.replicate d ' ' ++ String.data c3Tail).takeWhile (fun x => x == ' ')).length, diffInd := 4 } 1 ((List.replicate d ' ' ++ String.data c3Tail).dropWhile (fun x => x == ' '))) := rfl
    rw [e1, takeWhile_sp_replicate, dropWhile_sp_replicate]
    rw [show (String.data c3Tail).takeWhile (fun x => x == ' ') = ([] : List Char) from rfl]
    rw [show (String.data c3Tail).dropWhile (fun x => x == ' ') = String.data c3Tail from rfl]
    rw [List.append_nil, List.length_replicate]
    rw [if_pos hd, Nat.sub_sub_self (Nat.le_of_lt hd)]
    rfl
  have h1 : scanOuter (d + 85) ⟨[], 0, 0, false, false⟩
      (String.data c3Head ++ (List.replicate d ' ' ++ String.data c3Tail)) =
      (match flatten (d + 59) c3St0 1
          ('\n' :: (List.replicate d ' ' ++ String.data c3Tail)) with
       | none => none
       | some (st2, rem) => scanOuter (d + 66) st2 rem) := rfl
  unfold transform_if_else
  rw [hlen, hdata, h1, h2]
  rfl

/-- C3, witness: the amended theorem applied at the concrete depth
30. -/
theorem C3_amended_deep_lines_to_base_witness :
    4 < 30 ∧ transform_if_else (c3Input 30) = some c3Output := by
  exact ⟨by decide, C3_amended_deep_lines_to_base 30 (by decide)⟩

/-- C4, counterexample: on the §8-shaped input whose inner `if` has no
`else` (`c4Input`, final closing brace in column 0), the output still
contains a dangling empty `else {}` — the emptied block reads
`else {` + newline + `}` with zero spaces, while the deletion pattern
demands delta-many (4), so the `replace` removes nothing. -/
theorem C4_counterexample :
    transform_if_else c4Input = some c4Output ∧
    occursSub (String.data " else \x7b\n\x7d") (String.data c4Output) = true := by
  refine ⟨by decide, by decide⟩

/-- C4, amended: the post-process deletes exactly the occurrences of
`" else {\n" + delta-spaces + "}"`, so the vacuous else block is
removed precisely when its closing line carries delta-many spaces: on
the one-level-indented clause `c4IndentedInput` (delta 4, closing line
4 spaces) the output is fully cleaned and contains no ` else {` at
all. -/
theorem C4_amended_indented_clause_cleaned :
    transform_if_else c4IndentedInput = some c4IndentedOutput ∧
    occursSub (String.data " else \x7b") (String.data c4IndentedOutput) = false := by
  refine ⟨by decide, by decide⟩

/-- C10, counterexample: `transform_if_else` is not total — on the
two-character input `el` the scanner sees `'e'` with `'l'` peeked and
performs three `chars.next().unwrap()` reads, the second of which
fails, so the function panics instead of returning a string. -/
theorem C10_counterexample :
    transform_if_else "el" = none := by
  decide

/-- Helper: `replaceAll` is the identity when the pattern does not
occur in the text. -/
theorem replaceAll_of_not_occurs (fuel : Nat) :
    ∀ (s pat rep : List Char), occursSub pat s = false →
      replaceAll fuel s pat rep = s := by
  induction fuel with
  | zero => intro s pat rep _; rfl
  | succ n ih =>
    intro s pat rep h
    cases s with
    | nil => rfl
    | cons c cs =>
      simp only [occursSub, Bool.or_eq_false_iff] at h
      simp only [replaceAll, h.1, Bool.false_eq_true, if_false]
      rw [ih cs pat rep h.2]

/-- Helper: `noElPair` is preserved by dropping the head character. -/
theorem noElPair_tail (c : Char) (cs : List Char)
    (h : noElPair (c :: cs) = true) : noElPair cs = true := by
  cases cs with
  | nil => rfl
  | cons d rest =>
    simp only [noElPair, Bool.and_eq_true] at h
    exact h.2

/-- Helper: a text with no adjacent `'e'`,`'l'` pair is scan-benign at
any sufficient fuel. -/
theorem noElPair_benignF :
    ∀ (fuel : Nat) (s : List Char), s.length < fuel → noElPair s = true →
      benignF fuel s = true := by
  intro fuel
  induction fuel with
  | zero => intro s hl _; exact absurd hl (Nat.not_lt_zero _)
  | succ n ih =>
    intro s hl h
    cases s with
    | nil => rfl
    | cons c cs =>
      have hg : ¬(c = 'e' ∧ cs.head? = some 'l') := by
        rintro ⟨rfl, hh⟩
        cases cs with
        | nil => simp at hh
        | cons d rest =>
          simp only [List.head?_cons, Option.some.injEq] at hh
          subst hh
          simp [noElPair] at h
      simp only [benignF, if_neg hg]
      refine ih cs ?_ (noElPair_tail c cs h)
      simpa using Nat.lt_of_succ_lt_succ hl

/-- Helper: a text with no adjacent `'e'`,`'l'` pair cannot contain
the zero-delta deletion pattern `" else {\n}"` (which has `'e'`,`'l'`
at its second and third characters). -/
theorem noElPair_not_occurs :
    ∀ s : List Char, noElPair s = true →
      occursSub emptyElsePattern s = false := by
  intro s
  induction s with
  | nil => intro _; rfl
  | cons c cs ih =>
    intro h
    simp only [occursSub, Bool.or_eq_false_iff]
    refine ⟨?_, ih (noElPair_tail c cs h)⟩
    cases cs with
    | nil => simp [emptyElsePattern, startsWithL]
    | cons d rest =>
      cases rest with
      | nil => simp [emptyElsePattern, startsWithL]
      | cons d2 rest2 =>
        by_cases hde : d = 'e'
        · by_cases hd2 : d2 = 'l'
          · subst hde; subst hd2
            have h2 := noElPair_tail c _ h
            simp [noElPair] at h2
          · subst hde
            simp [emptyElsePattern, startsWithL, beq_iff_eq, Ne.symm hd2]
        · simp [emptyElsePattern, startsWithL, beq_iff_eq, Ne.symm hde]

/-- Helper: on a scan-benign text the outer scanner copies every
character through verbatim and leaves the rest of the state
(`if_indentation`, `diff_indentation`, both flags) untouched. -/
theorem benignF_scanOuter :
    ∀ (fuel : Nat) (s : List Char) (st : TState), benignF fuel s = true →
      scanOuter fuel st s = some { st with result := s.reverse ++ st.result } := by
  intro fuel
  induction fuel with
  | zero => intro s st h; simp [benignF] at h
  | succ n ih =>
    intro s st h
    cases s with
    | nil => simp [scanOuter]
    | cons c cs =>
      by_cases hg : c = 'e' ∧ cs.head? = some 'l'
      · obtain ⟨rfl, hh⟩ := hg
        cases cs with
        | nil => simp at hh
        | cons c2 cs2 =>
          simp only [List.head?_cons, Option.some.injEq] at hh
          subst hh
          cases cs2 with
          | nil => simp [benignF] at h
          | cons c3 cs3 =>
            cases cs3 with
            | nil => simp [benignF] at h
            | cons c4 rest =>
              have h0 : (if (rest.dropWhile isWs).head? = some '{' then false
                  else benignF n (rest.dropWhile isWs)) = true := h
              by_cases hbr : (rest.dropWhile isWs).head? = some '{'
              · rw [if_pos hbr] at h0; exact absurd h0 (by simp)
              · rw [if_neg hbr] at h0
                have hred : scanOuter (n + 1) st ('e' :: 'l' :: c3 :: c4 :: rest) =
                    (if (rest.dropWhile isWs).head? = some '{' then
                      scanBrace (scanOuter n) (flatten n) st
                        ('e' :: 'l' :: c3 :: c4 :: rest.takeWhile isWs)
                        (rest.dropWhile isWs)
                    else
                      scanOuter n { st with result := pushStr st.result ('e' :: 'l' :: c3 :: c4 :: rest.takeWhile isWs) } (rest.dropWhile isWs)) := rfl
                rw [hred, if_neg hbr, ih _ _ h0]
                refine congrArg some ?_
                refine congrArg (fun r => TState.mk r st.ifInd st.diffInd
                  st.insideElse st.extraElse) ?_
                simp only [pushStr, List.reverse_cons, List.append_assoc,
                  List.singleton_append]
                rw [← List.takeWhile_append_dropWhile isWs rest, List.reverse_append,
                  List.append_assoc, List.takeWhile_append_dropWhile]
      · have h2 : benignF n cs = true := by
          simpa only [benignF, if_neg hg] using h
        simp only [scanOuter, if_neg hg]
        rw [ih _ _ h2]
        refine congrArg some ?_
        refine congrArg (fun r => TState.mk r st.ifInd st.diffInd
          st.insideElse st.extraElse) ?_
        simp [List.reverse_cons, List.append_assoc]

/-- Helper: on a scan-benign text that does not contain the zero-delta
deletion pattern, `transform_if_else` is the identity. -/
theorem transform_benign_id (s : String)
    (h1 : benignF (s.data.length + 1) s.data = true)
    (h2 : occursSub emptyElsePattern s.data = false) :
    transform_if_else s = some s := by
  obtain ⟨l⟩ := s
  simp only [transform_if_else]
  rw [benignF_scanOuter _ _ _ h1]
  have hpat : String.data " else \x7b\n" ++ List.replicate (0 : Nat) ' ' ++ [ '}' ] =
      emptyElsePattern := by decide
  simp only [List.append_nil, List.reverse_reverse, hpat]
  rw [replaceAll_of_not_occurs _ _ _ _ h2]

/-- C2, amended: `transform_if_else` returns its input byte-for-byte
unchanged on every scan-benign input (each `'e'`-`'l'` occurrence is
followed by at least two more characters and, after that four-character
window and the following whitespace run, by something other than `'{'`)
that also does not contain the substring `" else {\n}"` (which the
final zero-delta `replace` would delete).  It does not hold for all
inputs without an `else`-ws-`{`-ws-`if` sequence: an ordinary
`else { x` block loses the whitespace between `{` and its first
token. -/
theorem C2_amended_benign_unchanged (s : String)
    (h1 : benignF (s.data.length + 1) s.data = true)
    (h2 : occursSub emptyElsePattern s.data = false) :
    transform_if_else s = some s := by
  exact transform_benign_id s h1 h2

/-- C2, witness: the amended theorem applied to the concrete input
`let x = y;`, which is scan-benign and pattern-free. -/
theorem C2_amended_benign_unchanged_witness :
    benignF ((String.data "let x = y;").length + 1) (String.data "let x = y;") = true ∧
    transform_if_else "let x = y;" = some "let x = y;" := by
  exact ⟨by decide, C2_amended_benign_unchanged "let x = y;" (by decide) (by decide)⟩

/-- C10, amended: `transform_if_else` terminates and returns a string
on every input that contains no `'e'` immediately followed by `'l'`;
it is not total on all strings — on inputs such as `el`, where the
pair occurs with fewer than two characters after it, the three
character reads fail. -/
theorem C10_amended_total_without_el (s : String)
    (h : noElPair s.data = true) :
    (transform_if_else s).isSome = true := by
  have hb : benignF (s.data.length + 1) s.data = true :=
    noElPair_benignF _ _ (Nat.lt_succ_self _) h
  have ho : occursSub emptyElsePattern s.data = false :=
    noElPair_not_occurs _ h
  rw [transform_benign_id s hb ho]
  rfl

/-- C10, witness: the amended theorem applied to the concrete input
`abc def`. -/
theorem C10_amended_total_without_el_witness :
    noElPair (String.data "abc def") = true ∧
    (transform_if_else "abc def").isSome = true := by
  exact ⟨by decide, C10_amended_total_without_el "abc def" (by decide)⟩

/-- C5: `check_collapsible_else_if` appends exactly one diagnostic —
message `COLLAPSIBLE_ELSE_IF`, Warning severity, anchored at the else
clause's stable pointer — precisely when the else clause is a plain
block whose first statement is an expression statement holding an `if`
expression; in every other case (else-if clause, empty block, first
statement not an expression statement, first statement's expression
not an `if`) it appends nothing.  In both cases it returns normally
(the `todo!()` of line 51 is unreachable). -/
theorem C5_detector_characterisation (c : ElseClauseM) (diags : List PluginDiagnosticM) :
    check_collapsible_else_if c diags =
      some (diags ++
        (if elseIsPlainBlockWithLeadingIf c then
          [{ stablePtr := c.stablePtr, message := COLLAPSIBLE_ELSE_IF,
             severity := SeverityM.Warning }]
        else [])) := by
  obtain ⟨bof, ptr⟩ := c
  cases bof with
  | ifBlock i =>
    simp [check_collapsible_else_if, is_else_if, elseIsPlainBlockWithLeadingIf]
  | block b =>
    obtain ⟨stmts⟩ := b
    cases stmts with
    | nil =>
      simp [check_collapsible_else_if, is_else_if, is_first_statement_if,
        elseIsPlainBlockWithLeadingIf]
    | cons s rest =>
      cases s with
      | otherStmt i =>
        simp [check_collapsible_else_if, is_else_if, is_first_statement_if,
          elseIsPlainBlockWithLeadingIf]
      | exprStmt se =>
        obtain ⟨e⟩ := se
        cases e <;>
          simp [check_collapsible_else_if, is_else_if, is_first_statement_if,
            elseIsPlainBlockWithLeadingIf]

/-- C6: each of the twelve fixed category message constants classifies
to its corresponding lint kind, never to `Unknown`; the classifier is
a pure function, so repeated calls agree; and every string that is not
one of the twelve constants classifies to `Unknown`. -/
theorem C6_classifier_round_trip :
    (diagnostic_kind_from_message DESTRUCT_MATCH = CairoLintKind.DestructMatch ∧
     diagnostic_kind_from_message MATCH_FOR_EQUALITY = CairoLintKind.MatchForEquality ∧
     diagnostic_kind_from_message DOUBLE_PARENS = CairoLintKind.DoubleParens ∧
     diagnostic_kind_from_message SIMPLIFIABLE_COMPARISON = CairoLintKind.DoubleComparison ∧
     diagnostic_kind_from_message REDUNDANT_COMPARISON = CairoLintKind.DoubleComparison ∧
     diagnostic_kind_from_message CONTRADICTORY_COMPARISON = CairoLintKind.DoubleComparison ∧
     diagnostic_kind_from_message BREAK_UNIT = CairoLintKind.BreakUnit ∧
     diagnostic_kind_from_message EQUATABLE_IF_LET = CairoLintKind.EquatableIfLet ∧
     diagnostic_kind_from_message BOOL_COMPARISON = CairoLintKind.BoolComparison ∧
     diagnostic_kind_from_message COLLAPSIBLE_ELSE_IF = CairoLintKind.CollapsibleIfElse ∧
     diagnostic_kind_from_message DUPLICATE_UNDERSCORE_ARGS = CairoLintKind.DuplicateUnderscoreArgs ∧
     diagnostic_kind_from_message LOOP_MATCH_POP_FRONT = CairoLintKind.LoopMatchPopFront) ∧
    (∀ m, m ∈ messageConstants → diagnostic_kind_from_message m ≠ CairoLintKind.Unknown) ∧
    (∀ m, diagnostic_kind_from_message m = diagnostic_kind_from_message m) ∧
    (∀ m, m ∉ messageConstants → diagnostic_kind_from_message m = CairoLintKind.Unknown) := by
  refine ⟨by decide, ?_, fun m => rfl, ?_⟩
  · intro m hm
    simp only [messageConstants, List.mem_cons, List.not_mem_nil, or_false] at hm
    rcases hm with rfl | rfl | rfl | rfl | rfl | rfl | rfl | rfl | rfl | rfl | rfl | rfl <;>
      decide
  · intro m hm
    simp only [messageConstants, List.mem_cons, List.not_mem_nil, or_false, not_or] at hm
    obtain ⟨h1, h2, h3, h4, h5, h6, h7, h8, h9, h10, h11, h12⟩ := hm
    simp [diagnostic_kind_from_message, h1, h2, h3, h4, h5, h6, h7, h8, h9, h10, h11, h12]

/-- C6, witness: applying the theorem at the unmatched message `""`
(not one of the twelve constants) yields `Unknown`, and at the
collapsible constant (a member of the list) a non-`Unknown` kind. -/
theorem C6_classifier_round_trip_witness :
    diagnostic_kind_from_message "" = CairoLintKind.Unknown ∧
    diagnostic_kind_from_message COLLAPSIBLE_ELSE_IF ≠ CairoLintKind.Unknown := by
  exact ⟨C6_classifier_round_trip.2.2.2 "" (by decide),
    C6_classifier_round_trip.2.1 COLLAPSIBLE_ELSE_IF (by decide)⟩

/-- C7: whenever no fixer exists for the diagnostic — an unused
import, a kind other than unused-variable/plugin-diagnostic, or a
plugin diagnostic whose message classifies to `Unknown`,
`MatchForEquality`, `EquatableIfLet`, `DuplicateUnderscoreArgs` or
`LoopMatchPopFront` — `fix_semantic_diagnostic` returns `None`
normally (an empty result, not a panic). -/
theorem C7_no_fixer_returns_none (d : SemanticDiagnostic)
    (h : hasNoFixer d = true) :
    fix_semantic_diagnostic d = some none := by
  obtain ⟨k, nt⟩ := d
  cases k with
  | UnusedVariable => simp [hasNoFixer] at h
  | UnusedImport i => rfl
  | OtherKind i => rfl
  | PluginDiagnostic pd =>
    simp only [fix_semantic_diagnostic, fix_plugin_diagnostic]
    cases hk : diagnostic_kind_from_message pd.message <;>
      simp [hasNoFixer, hk] at h ⊢

/-- C7, witness: the theorem applied to a concrete unused-import
diagnostic. -/
theorem C7_no_fixer_returns_none_witness :
    fix_semantic_diagnostic { kind := SemanticDiagnosticKind.UnusedImport 0,
                              nodeText := "use foo;" } = some none := by
  exact C7_no_fixer_returns_none _ (by decide)

/-- C8: given a match whose arm list starts with two arms that each
have a first pattern, `fix_destruct_match` returns a replacement
string exactly when the pattern pair is one of the expected shapes
(wildcard with enum/struct in either order, or enum with enum), and
panics (`none`) exactly when it is not. -/
theorem C8_destruct_match_contract (a1 a2 : MatchArmM) (rest : List MatchArmM)
    (scr nt : String) (p1 p2 : PatternM) (t1 t2 : List PatternM)
    (h1 : a1.patterns = p1 :: t1) (h2 : a2.patterns = p2 :: t2) :
    (fix_destruct_match { arms := a1 :: a2 :: rest, scrutineeText := scr,
                          nodeText := nt }).isSome = destructShapeOk p1 p2 := by
  simp only [fix_destruct_match, h1, h2]
  cases p1 <;> cases p2 <;>
    first
      | (simp [destructShapeOk]; done)
      | (cases hb : a2.exprIsUnit <;> simp [destructShapeOk, hb])

/-- C8, witness: the theorem applied to a concrete two-arm match
(`Some(v) => v` / `_ => ()`), whose shape is accepted, so a
replacement is produced without aborting. -/
theorem C8_destruct_match_contract_witness :
    (fix_destruct_match
        { arms := [{ patterns := [PatternM.enumPat "Some(v)" ""],
                     exprText := "v", exprIsUnit := false },
                   { patterns := [PatternM.underscore 0],
                     exprText := "()", exprIsUnit := true }],
          scrutineeText := "x", nodeText := "match x" }).isSome =
      destructShapeOk (PatternM.enumPat "Some(v)" "") (PatternM.underscore 0) := by
  exact C8_destruct_match_contract _ _ [] "x" "match x" _ _ [] [] rfl rfl

/-- C9: `fix_double_parens` on a parenthesized node returns the node
text's leading whitespace followed by the trivia-free text of the
innermost non-parenthesized expression — `stripParens` removes every
nesting layer (its result is never a `Parenthesized` node) — and on
the spec's examples `((x + y))` fixes to `x + y`, `(((a)))` to `a`,
with leading whitespace preserved exactly. -/
theorem C9_double_parens_strips_all_layers :
    (∀ (t : String) (e : ExprAst),
      fix_double_parens t e =
        String.mk (t.data.takeWhile isWs) ++ getTextWithoutTrivia (stripParens e)) ∧
    (∀ e : ExprAst, isParenthesized (stripParens e) = false) ∧
    (∀ e : ExprAst, stripParens (ExprAst.parenthesized e) = stripParens e) ∧
    fix_double_parens "((x + y))"
      (ExprAst.parenthesized (ExprAst.parenthesized (ExprAst.atom "x + y"))) = "x + y" ∧
    fix_double_parens "(((a)))"
      (ExprAst.parenthesized (ExprAst.parenthesized (ExprAst.parenthesized
        (ExprAst.atom "a")))) = "a" ∧
    fix_double_parens "  ((x + y))"
      (ExprAst.parenthesized (ExprAst.parenthesized (ExprAst.atom "x + y"))) = "  x + y" := by
  refine ⟨fun t e => rfl, ?_, fun e => rfl, by decide, by decide, by decide⟩
  intro e
  induction e with
  | parenthesized inner ih => simpa [stripParens] using ih
  | binary l op r ihl ihr => rfl
  | atom t => rfl

end CairoLint

